import Mathlib

/-!
Verification of the selector-matching / specificity engine and the
recursive-descent parsers of the html-parser repository (src/src/main.rs,
module dom), as a shallow embedding in Lean 4.

Modelling conventions, chosen to stay observably faithful to the Rust code:

* A Rust String appearing as parser input is modelled as its list of Unicode
  scalar values (List Char); Rust byte positions into the UTF-8 buffer are
  Nat offsets measured with Char.utf8Size, so the byte-level cursor
  arithmetic of the source (including its treatment of character boundaries)
  is reproduced exactly.
* HashMap String String (AttrMap) is modelled as an association list with
  last-write-wins insert and key lookup; only get/insert are used by the
  source, and those are the observations the model preserves.
* HashSet of classes is modelled by the list of split results; the only
  observation the source makes of it is membership (contains), which agrees
  with list membership.
* Rust panics (assert!, unwrap, panic!, string-slice boundary errors, and
  the non-exhaustive match in parse_node) are modelled as Except.error
  ParseError.panicked: the function aborts and returns no partial result.
* Loops and recursion are driven by an explicit fuel parameter (structural
  recursion on Nat); running out of fuel gives the distinct error
  ParseError.fuel, so a .ok result or a .panicked error is always a faithful
  run of the source. Every loop of the source consumes at least one byte or
  terminates, so sufficient fuel always exists for a concrete input.
* Floats (Value::Length) and u8 colour channels are carried as inert payload
  (Float / Nat); no claim inspects them.
-/

/-! ## Data model (structs and enums of src/src/main.rs) -/

/-- Rust: type AttrMap = HashMap of String to String. Association list with
the observable HashMap interface (get, insert with last-write-wins). -/
abbrev AttrMap := List (String × String)

def AttrMap.empty : AttrMap := []

/-- HashMap::insert: replaces the value of an existing key, else adds the
pair. -/
def AttrMap.insert (m : AttrMap) (k v : String) : AttrMap :=
  (List.filter (fun p => p.1 != k) m) ++ [(k, v)]

/-- HashMap::get. -/
def AttrMap.get (m : AttrMap) (k : String) : Option String :=
  (List.find? (fun p => p.1 == k) m).map (fun p => p.2)

/-- Rust: struct ElementData { tag_name: String, attributes: AttrMap }. -/
structure ElementData where
  tag_name : String
  attributes : AttrMap

/-- Rust: enum NodeType { Text(String), Element(ElementData) }. -/
inductive NodeType where
  | Text (data : String)
  | Element (data : ElementData)

/-- Rust: struct Node { children: Vec of Node, node_type: NodeType }. -/
inductive Node where
  | mk (children : List Node) (node_type : NodeType)

/-- Rust fn text(data: String) -> Node. -/
def text (data : String) : Node := .mk [] (.Text data)

/-- Rust fn elem(name, attrs, children) -> Node. -/
def elem (name : String) (attrs : AttrMap) (children : List Node) : Node :=
  .mk children (.Element { tag_name := name, attributes := attrs })

/-- Rust: struct SimpleSelector { tag_name: Option, id: Option,
class: Vec of String }. -/
structure SimpleSelector where
  tag_name : Option String
  id : Option String
  «class» : List String

/-- Rust: enum Selector { Simple(SimpleSelector) }. -/
inductive Selector where
  | Simple (s : SimpleSelector)

/-- Rust: pub type Specificity = (usize, usize, usize). -/
abbrev Specificity := Nat × Nat × Nat

/-- Rust: enum Unit { Px }. (Named CssUnit here because Unit is taken by
Lean's core library.) -/
inductive CssUnit where
  | Px

/-- Rust: struct Color { r, g, b, a: u8 }. The channels are inert payload,
carried as Nat. -/
structure Color where
  r : Nat
  g : Nat
  b : Nat
  a : Nat

/-- Rust: enum Value { Keyword(String), Length(f32, Unit),
ColorValue(Color) }. The f32 is inert payload. -/
inductive Value where
  | Keyword (s : String)
  | Length (magnitude : Float) (unit : CssUnit)
  | ColorValue (c : Color)

/-- Rust: struct Declaration { name: String, value: Value }. -/
structure Declaration where
  name : String
  value : Value

/-- Rust: struct Rule { selectors: Vec of Selector,
declarations: Vec of Declaration }. -/
structure Rule where
  selectors : List Selector
  declarations : List Declaration

/-- Rust: struct Stylesheet { rules: Vec of Rule }. -/
structure Stylesheet where
  rules : List Rule

/-! ## Matching engine (impl ElementData, impl Selector, matches,
match_rule, matching_rules) -/

/-- Rust str::split(c): cuts at every occurrence of the separator character,
keeping empty segments ("" splits to [""], "a  b" to ["a", "", "b"]).
Accumulator holds the current segment reversed. -/
def splitChars (sep : Char → Bool) : List Char → List Char → List String
  | [], acc => [String.mk acc.reverse]
  | c :: rest, acc =>
    if sep c then String.mk acc.reverse :: splitChars sep rest []
    else splitChars sep rest (c :: acc)

/-- Rust ElementData::id: self.attributes.get("id"). -/
def ElementData.id (self : ElementData) : Option String :=
  AttrMap.get self.attributes "id"

/-- Rust ElementData::classes: classlist.split(one space).collect() into a
HashSet, or the empty set when there is no class attribute. The set is
modelled by the list of segments; the source only tests membership. -/
def ElementData.classes (self : ElementData) : List String :=
  match AttrMap.get self.attributes "class" with
  | some classlist => splitChars (fun c => c == ' ') classlist.data []
  | none => []

/-- Rust fn matches_simple_selector: three early-return checks (tag name,
id, classes), then true. -/
def matches_simple_selector (elem : ElementData) (selector : SimpleSelector) : Bool :=
  if selector.tag_name.any (fun name => elem.tag_name != name) then false
  else if selector.id.any (fun id => ElementData.id elem != some id) then false
  else if selector.class.any (fun c => !((ElementData.classes elem).contains c)) then false
  else true

/-- Rust fn matches: dispatch on the Selector variant. -/
def «matches» (elem : ElementData) (selector : Selector) : Bool :=
  match selector with
  | .Simple simple_select => matches_simple_selector elem simple_select

/-- Rust Selector::specificity: (id.iter().count(), class.len(),
tag_name.iter().count()). Option::iter().count() is the length of
Option.toList. -/
def Selector.specificity : Selector → Specificity
  | .Simple simple =>
    (simple.id.toList.length, simple.class.length, simple.tag_name.toList.length)

/-- The derived Ord of the Rust tuple (usize, usize, usize): lexicographic,
first component dominating. This is the comparison sort_by uses on
specificities in parse_selector. -/
def specCmp (x y : Specificity) : Ordering :=
  (compare x.1 y.1).then ((compare x.2.1 y.2.1).then (compare x.2.2 y.2.2))

/-- Rust fn match_rule: the first selector of the rule that matches, paired
with its specificity and the rule. -/
def match_rule (elem : ElementData) (rule : Rule) : Option (Specificity × Rule) :=
  (rule.selectors.find? (fun selector => «matches» elem selector)).map
    (fun selector => (selector.specificity, rule))

/-- Rust fn matching_rules: filter_map of match_rule over the stylesheet's
rules. -/
def matching_rules (elem : ElementData) (stylesheet : Stylesheet) :
    List (Specificity × Rule) :=
  stylesheet.rules.filterMap (fun rule => match_rule elem rule)

/-! ## Propositional vocabulary for specificity ordering -/

/-- Strict lexicographic order on specificity triples (id-count dominates,
then class-count, then tag-count). -/
def specLt (x y : Specificity) : Prop :=
  x.1 < y.1 ∨ (x.1 = y.1 ∧ (x.2.1 < y.2.1 ∨ (x.2.1 = y.2.1 ∧ x.2.2 < y.2.2)))

/-- Lexicographic order-or-equal on specificity triples. -/
def specLe (x y : Specificity) : Prop :=
  x.1 < y.1 ∨ (x.1 = y.1 ∧ (x.2.1 < y.2.1 ∨ (x.2.1 = y.2.1 ∧ x.2.2 ≤ y.2.2)))

/-! ## Spec-side definitions for claim C1 -/

/-- Modelled from the spec's words (claim C1): the element's
"whitespace-split class attribute value", splitting on any whitespace
character rather than on the space character the code uses. Stated only to
be compared with ElementData.classes / matches_simple_selector. -/
def ElementData.classesSpec (self : ElementData) : List String :=
  match AttrMap.get self.attributes "class" with
  | some classlist => splitChars Char.isWhitespace classlist.data []
  | none => []

/-- Modelled from the spec's words (claim C1): all present constraints hold,
with the class constraint read against the whitespace-split class list.
Stated only to be compared with matches_simple_selector. -/
def matches_spec_claim (elem : ElementData) (selector : SimpleSelector) : Bool :=
  selector.tag_name.all (fun t => elem.tag_name == t)
  && selector.id.all (fun i => ElementData.id elem == some i)
  && selector.class.all (fun c => (ElementData.classesSpec elem).contains c)

/-! ## Parser state and cursor primitives (struct Parser, impl Parser) -/

/-- The two fatal outcomes of a run of the embedded parsers: panicked models
every Rust panic (assert!, unwrap on None, panic with a message, slicing a
string inside a character); fuel is exhaustion of the explicit fuel and
corresponds to no behaviour of the source. -/
inductive ParseError where
  | panicked
  | fuel

/-- Rust: struct Parser { pos: usize, input: String }. pos is a byte offset
into the UTF-8 representation of input; input is kept as its list of
Unicode scalar values. -/
structure Parser where
  pos : Nat
  input : List Char

/-- The suffix of the character list that starts at byte offset p, when p is
a character boundary at or before the end (Rust: what input[p..] denotes);
none when p is out of range or inside a multi-byte character (Rust: slicing
panics). -/
def charsFrom : List Char → Nat → Option (List Char)
  | cs, 0 => some cs
  | [], _ + 1 => none
  | c :: cs, p + 1 =>
    if c.utf8Size ≤ p + 1 then charsFrom cs (p + 1 - c.utf8Size) else none

/-- The UTF-8 byte length of a character list (Rust String::len). -/
def utf8Len (cs : List Char) : Nat := cs.foldr (fun c n => c.utf8Size + n) 0

/-- Rust Parser::next_char: self.input[self.pos..].chars().next().unwrap().
Panics when pos is not a boundary (slice) or the slice is empty (unwrap). -/
def next_char (self : Parser) : Except ParseError Char :=
  match charsFrom self.input self.pos with
  | some (c :: _) => .ok c
  | _ => .error .panicked

/-- Rust Parser::starts_with: self.input[self.pos..].starts_with(s).
Panics when pos is not a boundary. -/
def starts_with (self : Parser) (s : List Char) : Except ParseError Bool :=
  match charsFrom self.input self.pos with
  | some rest => .ok (s.isPrefixOf rest)
  | none => .error .panicked

/-- Rust Parser::eof: self.pos >= self.input.len() (byte length). -/
def eof (self : Parser) : Bool := utf8Len self.input ≤ self.pos

/-- Rust Parser::consume_char: reads the character at pos via char_indices
and advances pos by the byte index of the following character — or, through
unwrap_or((1, a space)), by exactly 1 byte when the consumed character is
the last one of the input, whatever its size. -/
def consume_char (self : Parser) : Except ParseError (Char × Parser) :=
  match charsFrom self.input self.pos with
  | some (cur_char :: rest) =>
    let next_pos := match rest with
      | _ :: _ => cur_char.utf8Size
      | [] => 1
    .ok (cur_char, { self with pos := self.pos + next_pos })
  | _ => .error .panicked

/-- Rust Parser::consume_while: while not eof and the next character passes
the test, consume it; returns the consumed characters (the source collects
them into a String; callers wrap with String.mk). -/
def consume_while (fuel : Nat) (test : Char → Bool) (self : Parser) :
    Except ParseError (List Char × Parser) :=
  match fuel with
  | 0 => .error .fuel
  | fuel + 1 =>
    if eof self then .ok ([], self)
    else match next_char self with
      | .error e => .error e
      | .ok c =>
        if test c then
          match consume_char self with
          | .error e => .error e
          | .ok (c', self') =>
            match consume_while fuel test self' with
            | .error e => .error e
            | .ok (result, self'') => .ok (c' :: result, self'')
        else .ok ([], self)

/-- Models Rust assert!(cond): ok when the condition holds, panic
otherwise. -/
def rustAssert (b : Bool) : Except ParseError PUnit :=
  if b then .ok ⟨⟩ else .error .panicked

/-- Rust Parser::consume_whitespace: consume_while(char::is_whitespace).
Char.isWhitespace covers the ASCII whitespace the inputs of this grammar
use. -/
def consume_whitespace (fuel : Nat) (self : Parser) : Except ParseError Parser := do
  let (_, self) ← consume_while fuel Char.isWhitespace self
  .ok self

/-- Rust Parser::parse_tag_name: consume_while of ASCII letters and
digits. -/
def parse_tag_name (fuel : Nat) (self : Parser) : Except ParseError (String × Parser) := do
  let (cs, self) ← consume_while fuel (fun c =>
    (decide ('a' ≤ c) && decide (c ≤ 'z')) || (decide ('A' ≤ c) && decide (c ≤ 'Z'))
      || (decide ('0' ≤ c) && decide (c ≤ '9'))) self
  .ok (String.mk cs, self)

/-! ## Markup parser -/

/-- Rust Parser::parse_text: one Text node from consume_while(c != less-than
sign); no entity decoding. Defined in the source but never called (see
parse_node). -/
def parse_text (fuel : Nat) (self : Parser) : Except ParseError (Node × Parser) := do
  let (cs, self) ← consume_while fuel (fun c => c != '<') self
  .ok (text (String.mk cs), self)

/-- Rust Parser::parse_attr_value: opening quote (double or single),
consume_while up to the same quote, closing quote. -/
def parse_attr_value (fuel : Nat) (self : Parser) : Except ParseError (String × Parser) := do
  let (open_quote, self) ← consume_char self
  rustAssert (open_quote == '"' || open_quote == '\'')
  let (value, self) ← consume_while fuel (fun c => c != open_quote) self
  let (c, self) ← consume_char self
  rustAssert (c == open_quote)
  .ok (String.mk value, self)

/-- Rust Parser::parse_attr: name, equals sign, quoted value. -/
def parse_attr (fuel : Nat) (self : Parser) :
    Except ParseError ((String × String) × Parser) := do
  let (name, self) ← parse_tag_name fuel self
  let (c, self) ← consume_char self
  rustAssert (c == '=')
  let (value, self) ← parse_attr_value fuel self
  .ok ((name, value), self)

/-- The loop of Rust Parser::parse_attributes, with the accumulated map as
the loop state: whitespace, stop before a closing angle bracket, else one
attribute and around again. -/
def parse_attributes_loop (fuel : Nat) (attributes : AttrMap) (self : Parser) :
    Except ParseError (AttrMap × Parser) :=
  match fuel with
  | 0 => .error .fuel
  | fuel + 1 => do
    let self ← consume_whitespace fuel self
    let c ← next_char self
    if c = '>' then .ok (attributes, self)
    else do
      let ((name, value), self) ← parse_attr fuel self
      parse_attributes_loop fuel (attributes.insert name value) self

/-- Rust Parser::parse_attributes: the loop started from the empty map. -/
def parse_attributes (fuel : Nat) (self : Parser) : Except ParseError (AttrMap × Parser) :=
  parse_attributes_loop fuel AttrMap.empty self

mutual

/-- Rust Parser::parse_node: match on next_char with a single arm for the
opening angle bracket (parse_element). The source's match is non-exhaustive
— it has no arm producing a text node and parse_text is never called — so
any other character is a fatal error here. -/
def parse_node (fuel : Nat) (self : Parser) : Except ParseError (Node × Parser) :=
  match fuel with
  | 0 => .error .fuel
  | fuel + 1 =>
    match next_char self with
    | .error e => .error e
    | .ok c =>
      if c = '<' then parse_element fuel self
      else .error .panicked

/-- Rust Parser::parse_element: opening tag with attributes, children, and
an exact matching closing tag; every assert! is a fatal error. -/
def parse_element (fuel : Nat) (self : Parser) : Except ParseError (Node × Parser) :=
  match fuel with
  | 0 => .error .fuel
  | fuel + 1 => do
    let (c, self) ← consume_char self
    rustAssert (c == '<')
    let (tag_name, self) ← parse_tag_name fuel self
    let (attrs, self) ← parse_attributes fuel self
    let (c, self) ← consume_char self
    rustAssert (c == '>')
    let (children, self) ← parse_nodes fuel self
    let (c, self) ← consume_char self
    rustAssert (c == '<')
    let (c, self) ← consume_char self
    rustAssert (c == '/')
    let (closing, self) ← parse_tag_name fuel self
    rustAssert (closing == tag_name)
    let (c, self) ← consume_char self
    rustAssert (c == '>')
    .ok (elem tag_name attrs children, self)

/-- Rust Parser::parse_nodes: whitespace, stop at end of input or before a
closing-tag lookahead, else one node and around again. -/
def parse_nodes (fuel : Nat) (self : Parser) : Except ParseError (List Node × Parser) :=
  match fuel with
  | 0 => .error .fuel
  | fuel + 1 => do
    let self ← consume_whitespace fuel self
    if eof self then .ok ([], self)
    else do
      let b ← starts_with self "</".data
      if b then .ok ([], self)
      else do
        let (node, self) ← parse_node fuel self
        let (nodes, self') ← parse_nodes fuel self
        .ok (node :: nodes, self')

end

/-- Rust fn source: parse_nodes from position 0; a single top-level node is
returned as is (nodes.swap_remove(0)), anything else is wrapped in a
synthetic html element with no attributes. -/
def source (fuel : Nat) (src : String) : Except ParseError Node :=
  match parse_nodes fuel { pos := 0, input := src.data } with
  | .error e => .error e
  | .ok (nodes, _) =>
    match nodes with
    | [node] => .ok node
    | _ => .ok (elem "html" AttrMap.empty nodes)

/-! ## Selector parser -/

/-- Modelled from the spec: the source calls valid_identifier_char but does
not define it (the spec describes identifier-leading characters and
identifiers); the conventional definition for this grammar is ASCII
letters, digits, hyphen and underscore. -/
def valid_identifier_char (c : Char) : Bool :=
  (decide ('a' ≤ c) && decide (c ≤ 'z')) || (decide ('A' ≤ c) && decide (c ≤ 'Z'))
    || (decide ('0' ≤ c) && decide (c ≤ '9')) || c == '-' || c == '_'

/-- Modelled from the spec: the source calls parse_identifier but does not
define it; per the spec it consumes an identifier, i.e. a run of
valid_identifier_char. -/
def parse_identifier (fuel : Nat) (self : Parser) : Except ParseError (String × Parser) := do
  let (cs, self) ← consume_while fuel valid_identifier_char self
  .ok (String.mk cs, self)

/-- The loop of Rust Parser::parse_simple_selector, with the selector built
so far as the loop state: a hash sign sets the id, an asterisk is consumed
and ignored, an identifier-leading character sets the tag name, anything
else (or end of input) stops. -/
def parse_simple_selector_loop (fuel : Nat) (selector : SimpleSelector) (self : Parser) :
    Except ParseError (SimpleSelector × Parser) :=
  match fuel with
  | 0 => .error .fuel
  | fuel + 1 =>
    if eof self then .ok (selector, self)
    else do
      let c ← next_char self
      if c = '#' then do
        let (_, self) ← consume_char self
        let (idv, self) ← parse_identifier fuel self
        parse_simple_selector_loop fuel { selector with id := some idv } self
      else if c = '*' then do
        let (_, self) ← consume_char self
        parse_simple_selector_loop fuel selector self
      else if valid_identifier_char c then do
        let (tag, self) ← parse_identifier fuel self
        parse_simple_selector_loop fuel { selector with tag_name := some tag } self
      else .ok (selector, self)

/-- Rust Parser::parse_simple_selector: the loop started from the selector
with no constraints. -/
def parse_simple_selector (fuel : Nat) (self : Parser) :
    Except ParseError (SimpleSelector × Parser) :=
  parse_simple_selector_loop fuel { tag_name := none, id := none, «class» := [] } self

/-- Insertion step of the model of Rust slice::sort_by (a stable sort): the
new element goes in front of the first accumulated element strictly greater
than it under the comparator, hence after every earlier equal element. -/
def insertSorted (cmp : α → α → Ordering) (a : α) : List α → List α
  | [] => [a]
  | b :: bs => if cmp b a = Ordering.gt then a :: b :: bs else b :: insertSorted cmp a bs

/-- Model of Rust slice::sort_by: a stable insertion sort, ascending under
the comparator. A stable sort's output is determined by the comparator
alone, so this agrees observably with the source's sort. -/
def sort_by (cmp : α → α → Ordering) (l : List α) : List α :=
  l.foldl (fun sorted a => insertSorted cmp a sorted) []

/-- The loop of Rust Parser::parse_selector, with the selectors read so far
as the loop state: one simple selector, then whitespace, then a comma
continues the list, an opening brace ends it, and any other character (or
end of input, through next_char's unwrap) is fatal — the source's
panic with an unexpected-character message. -/
def parse_selector_loop (fuel : Nat) (selectors : List Selector) (self : Parser) :
    Except ParseError (List Selector × Parser) :=
  match fuel with
  | 0 => .error .fuel
  | fuel + 1 => do
    let (simple, self) ← parse_simple_selector fuel self
    let selectors := selectors ++ [Selector.Simple simple]
    let self ← consume_whitespace fuel self
    let c ← next_char self
    if c = ',' then do
      let (_, self) ← consume_char self
      let self ← consume_whitespace fuel self
      parse_selector_loop fuel selectors self
    else if c = '{' then .ok (selectors, self)
    else .error .panicked

/-- Rust Parser::parse_selector: the loop from the empty list, then
selectors.sort_by(b.specificity().cmp(a.specificity())) — sorted so that
higher specificity comes first. -/
def parse_selector (fuel : Nat) (self : Parser) :
    Except ParseError (List Selector × Parser) :=
  match parse_selector_loop fuel [] self with
  | .error e => .error e
  | .ok (selectors, self) =>
    .ok (sort_by (fun a b => specCmp (Selector.specificity b) (Selector.specificity a))
      selectors, self)

/-- The element of the spec's matching examples: div with id x and classes
a and b. -/
def exampleDiv : ElementData :=
  { tag_name := "div", attributes := [("id", "x"), ("class", "a b")] }

/-! ## Helper lemmas -/

lemma ordering_then_eq_lt (o p : Ordering) :
    o.then p = .lt ↔ o = .lt ∨ (o = .eq ∧ p = .lt) := by
  cases o <;> simp [Ordering.then]

lemma ordering_then_eq_gt (o p : Ordering) :
    o.then p = .gt ↔ o = .gt ∨ (o = .eq ∧ p = .gt) := by
  cases o <;> simp [Ordering.then]

lemma specCmp_eq_lt (x y : Specificity) : specCmp x y = .lt ↔ specLt x y := by
  unfold specCmp specLt
  simp [ordering_then_eq_lt, Nat.compare_eq_lt, Nat.compare_eq_eq]

lemma specCmp_eq_gt (x y : Specificity) : specCmp x y = .gt ↔ specLt y x := by
  unfold specCmp specLt
  simp [ordering_then_eq_gt, Nat.compare_eq_gt, Nat.compare_eq_eq]
  omega

lemma specCmp_ne_gt (x y : Specificity) : ¬ specCmp x y = .gt ↔ specLe x y := by
  rw [specCmp_eq_gt]
  obtain ⟨a, b, c⟩ := x
  obtain ⟨d, e, f⟩ := y
  unfold specLt specLe
  simp only []
  omega

lemma specLt_asymm {x y : Specificity} : specLt x y → ¬ specLt y x := by
  obtain ⟨a, b, c⟩ := x
  obtain ⟨d, e, f⟩ := y
  unfold specLt
  simp only []
  omega

lemma specLe_trans {x y z : Specificity} : specLe x y → specLe y z → specLe x z := by
  obtain ⟨a, b, c⟩ := x
  obtain ⟨d, e, f⟩ := y
  obtain ⟨g, h, i⟩ := z
  unfold specLe
  simp only []
  omega

lemma mem_insertSorted (cmp : α → α → Ordering) (a x : α) :
    ∀ l, x ∈ insertSorted cmp a l ↔ x = a ∨ x ∈ l := by
  intro l
  induction l with
  | nil => simp [insertSorted]
  | cons b bs ih =>
    by_cases h : cmp b a = Ordering.gt
    · simp [insertSorted, h, List.mem_cons]
    · simp only [insertSorted, if_neg h, List.mem_cons, ih]
      tauto

lemma pairwise_insertSorted (cmp : α → α → Ordering)
    (hasym : ∀ x y, cmp x y = Ordering.gt → ¬ cmp y x = Ordering.gt)
    (htrans : ∀ x y z,
      ¬ cmp x y = Ordering.gt → ¬ cmp y z = Ordering.gt → ¬ cmp x z = Ordering.gt)
    (a : α) :
    ∀ l, List.Pairwise (fun x y => ¬ cmp x y = Ordering.gt) l →
      List.Pairwise (fun x y => ¬ cmp x y = Ordering.gt) (insertSorted cmp a l) := by
  intro l hl
  induction l with
  | nil => simp [insertSorted]
  | cons b bs ih =>
    rw [List.pairwise_cons] at hl
    obtain ⟨hb, hbs⟩ := hl
    by_cases h : cmp b a = Ordering.gt
    · rw [insertSorted, if_pos h]
      rw [List.pairwise_cons]
      refine ⟨?_, List.Pairwise.cons hb hbs⟩
      intro x hx
      rcases List.mem_cons.mp hx with heq | hx
      · subst heq
        exact hasym _ a h
      · exact htrans a b x (hasym b a h) (hb x hx)
    · rw [insertSorted, if_neg h]
      rw [List.pairwise_cons]
      refine ⟨?_, ih hbs⟩
      intro x hx
      rcases (mem_insertSorted cmp a x bs).mp hx with heq | hx
      · subst heq
        exact h
      · exact hb x hx

lemma pairwise_sort_by (cmp : α → α → Ordering)
    (hasym : ∀ x y, cmp x y = Ordering.gt → ¬ cmp y x = Ordering.gt)
    (htrans : ∀ x y z,
      ¬ cmp x y = Ordering.gt → ¬ cmp y z = Ordering.gt → ¬ cmp x z = Ordering.gt)
    (l : List α) :
    List.Pairwise (fun x y => ¬ cmp x y = Ordering.gt) (sort_by cmp l) := by
  have aux : ∀ (l acc : List α),
      List.Pairwise (fun x y => ¬ cmp x y = Ordering.gt) acc →
      List.Pairwise (fun x y => ¬ cmp x y = Ordering.gt)
        (l.foldl (fun sorted a => insertSorted cmp a sorted) acc) := by
    intro l
    induction l with
    | nil => intro acc h; exact h
    | cons a t ih =>
      intro acc h
      exact ih _ (pairwise_insertSorted cmp hasym htrans a acc h)
  exact aux l [] List.Pairwise.nil

/-! ## Claim C2 -/

/-- Claim C2: for every Simple selector, specificity is exactly the triple
(id-count 0 or 1, class-count, tag-count 0 or 1); specificities compare
lexicographically with the id-count dominating, then class-count, then
tag-count; and the spec's examples: specificity of #x is (1,0,0), of .a.b
is (0,2,0), of div is (0,0,1), with (1,0,0) > (0,2,0) > (0,0,1) >
(0,0,0). -/
theorem specificity_lexicographic :
    (∀ simple : SimpleSelector,
      Selector.specificity (Selector.Simple simple) =
        ((if simple.id.isSome then 1 else 0), simple.class.length,
          (if simple.tag_name.isSome then 1 else 0)))
    ∧ (∀ x y : Specificity,
        specCmp x y = Ordering.lt ↔
          (x.1 < y.1 ∨ (x.1 = y.1 ∧ (x.2.1 < y.2.1 ∨ (x.2.1 = y.2.1 ∧ x.2.2 < y.2.2)))))
    ∧ Selector.specificity (Selector.Simple ⟨none, some "x", []⟩) = (1, 0, 0)
    ∧ Selector.specificity (Selector.Simple ⟨none, none, ["a", "b"]⟩) = (0, 2, 0)
    ∧ Selector.specificity (Selector.Simple ⟨some "div", none, []⟩) = (0, 0, 1)
    ∧ specCmp (1, 0, 0) (0, 2, 0) = .gt
    ∧ specCmp (0, 2, 0) (0, 0, 1) = .gt
    ∧ specCmp (0, 0, 1) (0, 0, 0) = .gt := by
  refine ⟨?_, fun x y => specCmp_eq_lt x y, rfl, rfl, rfl, by decide, by decide, by decide⟩
  intro s
  obtain ⟨tn, sid, cls⟩ := s
  cases sid <;> cases tn <;> rfl

/-! ## Claim C4 -/

/-- Claim C4: every selector list the selector parser accepts comes out
sorted by specificity descending (each selector's specificity is
lexicographically at least the next one's). -/
theorem parse_selector_sorted :
    ∀ (fuel : Nat) (self : Parser) (selectors : List Selector) (p : Parser),
      parse_selector fuel self = .ok (selectors, p) →
      List.Pairwise
        (fun a b => specLe (Selector.specificity b) (Selector.specificity a))
        selectors := by
  intro fuel self selectors p h
  unfold parse_selector at h
  cases hl : parse_selector_loop fuel [] self with
  | error e =>
    rw [hl] at h
    exact absurd h (by simp)
  | ok pair =>
    obtain ⟨sels, s0⟩ := pair
    rw [hl] at h
    simp only [Except.ok.injEq, Prod.mk.injEq] at h
    obtain ⟨h1, _⟩ := h
    subst h1
    have hs := pairwise_sort_by
      (fun a b => specCmp (Selector.specificity b) (Selector.specificity a))
      (fun x y hxy => by
        rw [specCmp_eq_gt] at hxy ⊢
        exact specLt_asymm hxy)
      (fun x y z hxy hyz => by
        rw [specCmp_ne_gt] at hxy hyz ⊢
        exact specLe_trans hyz hxy)
      sels
    exact hs.imp (fun hab => (specCmp_ne_gt _ _).mp hab)

/-- Witness for C4: parsing the selector list of "div, #x" sorted #x (one
id) in front of div (one tag). -/
theorem parse_selector_sorted_witness :
    List.Pairwise
      (fun a b => specLe (Selector.specificity b) (Selector.specificity a))
      [Selector.Simple ⟨none, some "x", []⟩, Selector.Simple ⟨some "div", none, []⟩] :=
  parse_selector_sorted 50 { pos := 0, input := "div, #x \x7b".data }
    [Selector.Simple ⟨none, some "x", []⟩, Selector.Simple ⟨some "div", none, []⟩]
    { pos := 8, input := "div, #x \x7b".data } rfl

/-! ## Claim C1 -/

lemma matches_simple_selector_eq_and (e : ElementData) (s : SimpleSelector) :
    matches_simple_selector e s =
      (!s.tag_name.any (fun name => e.tag_name != name)
        && (!s.id.any (fun id => ElementData.id e != some id)
        && !s.class.any (fun c => !((ElementData.classes e).contains c)))) := by
  unfold matches_simple_selector
  cases h1 : s.tag_name.any (fun name => e.tag_name != name) <;>
    cases h2 : s.id.any (fun id => ElementData.id e != some id) <;>
      cases h3 : s.class.any (fun c => !((ElementData.classes e).contains c)) <;>
        simp [h1, h2, h3]

lemma option_any_eq_false {p : α → Bool} {o : Option α} :
    o.any p = false ↔ ∀ a, o = some a → p a = false := by
  cases o <;> simp

/-- Counterexample to claim C1 as stated: with a tab between the class
names, the whitespace-split reading of the spec makes the selector .b match
the element, but the code splits the class attribute on the space character
only and rejects it. -/
theorem matches_whitespace_class_counterexample :
    ¬ (matches_simple_selector ⟨"div", [("class", "a\tb")]⟩ ⟨none, none, ["b"]⟩ = true
        ↔ matches_spec_claim ⟨"div", [("class", "a\tb")]⟩ ⟨none, none, ["b"]⟩ = true) := by
  decide

/-- Claim C1 (amended): matches returns true iff all present constraints
hold — the tag name, if specified, equals the element's tag name exactly;
the id, if specified, equals the element's id attribute; every class of the
selector is present in the element's class attribute value split on single
space characters (not on general whitespace; absent attribute gives the
empty set); absent constraints impose nothing. The spec's examples: the
element div with id x and class "a b" matches div, #x, .a, .b, div#x.a.b
and the universal (empty) selector, but not span, #y or .c. -/
theorem matches_simple_selector_characterization :
    (∀ (e : ElementData) (s : SimpleSelector),
      matches_simple_selector e s = true ↔
        ((∀ t, s.tag_name = some t → e.tag_name = t)
          ∧ (∀ i, s.id = some i → ElementData.id e = some i)
          ∧ (∀ c, c ∈ s.class → c ∈ ElementData.classes e)))
    ∧ matches_simple_selector exampleDiv ⟨some "div", none, []⟩ = true
    ∧ matches_simple_selector exampleDiv ⟨none, some "x", []⟩ = true
    ∧ matches_simple_selector exampleDiv ⟨none, none, ["a"]⟩ = true
    ∧ matches_simple_selector exampleDiv ⟨none, none, ["b"]⟩ = true
    ∧ matches_simple_selector exampleDiv ⟨some "div", some "x", ["a", "b"]⟩ = true
    ∧ matches_simple_selector exampleDiv ⟨none, none, []⟩ = true
    ∧ matches_simple_selector exampleDiv ⟨some "span", none, []⟩ = false
    ∧ matches_simple_selector exampleDiv ⟨none, some "y", []⟩ = false
    ∧ matches_simple_selector exampleDiv ⟨none, none, ["c"]⟩ = false := by
  refine ⟨?_, by decide, by decide, by decide, by decide, by decide, by decide,
    by decide, by decide, by decide⟩
  intro e s
  rw [matches_simple_selector_eq_and]
  simp only [Bool.and_eq_true, Bool.not_eq_true', option_any_eq_false,
    List.any_eq_false, bne_eq_false_iff_eq, Bool.not_eq_true]
  simp

/-! ## Claim C3 -/

/-- Claim C3: a (specificity, rule) pair is in matching_rules exactly when
the rule is in the stylesheet and some selector of the rule matches the
element; the specificity reported is that of the first matching selector in
the rule's selector sequence (every selector before it fails to match). -/
theorem matching_rules_characterization :
    ∀ (e : ElementData) (ss : Stylesheet) (sp : Specificity) (r : Rule),
      (sp, r) ∈ matching_rules e ss ↔
        (r ∈ ss.rules ∧
          ∃ (pre : List Selector) (sel : Selector) (post : List Selector),
            r.selectors = pre ++ sel :: post
            ∧ (∀ s ∈ pre, «matches» e s = false)
            ∧ «matches» e sel = true
            ∧ sp = Selector.specificity sel) := by
  intro e ss sp r
  unfold matching_rules
  rw [List.mem_filterMap]
  constructor
  · rintro ⟨a, ha, hf⟩
    unfold match_rule at hf
    cases hfind : a.selectors.find? (fun selector => «matches» e selector) with
    | none =>
      rw [hfind] at hf
      exact absurd hf (by simp)
    | some sel =>
      rw [hfind] at hf
      simp only [Option.map_some', Option.some.injEq, Prod.mk.injEq] at hf
      obtain ⟨hsp, ha'⟩ := hf
      subst ha'
      rw [List.find?_eq_some] at hfind
      obtain ⟨hsel, pre, post, heq, hall⟩ := hfind
      exact ⟨ha, pre, sel, post, heq,
        fun s hs => by simpa using hall s hs, hsel, hsp.symm⟩
  · rintro ⟨hr, pre, sel, post, heq, hpre, hsel, hsp⟩
    refine ⟨r, hr, ?_⟩
    unfold match_rule
    have hfind : r.selectors.find? (fun selector => «matches» e selector) = some sel := by
      rw [List.find?_eq_some]
      exact ⟨hsel, pre, post, heq, fun a ha => by simp [hpre a ha]⟩
    rw [hfind, hsp]
    rfl

/-! ## Claim C10 -/

lemma match_rule_snd {e : ElementData} {r : Rule} {m : Specificity × Rule} :
    match_rule e r = some m → m.2 = r := by
  unfold match_rule
  cases r.selectors.find? (fun selector => «matches» e selector) with
  | none => intro h; exact absurd h (by simp)
  | some sel =>
    intro h
    simp only [Option.map_some', Option.some.injEq] at h
    rw [← h]

/-- Claim C10: matching_rules keeps the stylesheet's relative rule order —
its rules component is exactly the stylesheet's rule list filtered to the
rules match_rule accepts, hence a sublist (order-preserving selection) of
the stylesheet's rules. -/
theorem matching_rules_source_order :
    ∀ (e : ElementData) (ss : Stylesheet),
      (matching_rules e ss).map Prod.snd
          = ss.rules.filter (fun rule => (match_rule e rule).isSome)
      ∧ List.Sublist ((matching_rules e ss).map Prod.snd) ss.rules := by
  intro e ss
  have key : ∀ l : List Rule,
      (l.filterMap (fun rule => match_rule e rule)).map Prod.snd
        = l.filter (fun rule => (match_rule e rule).isSome) := by
    intro l
    induction l with
    | nil => rfl
    | cons r t ih =>
      cases h : match_rule e r with
      | none => simp [List.filterMap_cons, List.filter_cons, h, ih]
      | some m =>
        have hm := match_rule_snd h
        simp [List.filterMap_cons, List.filter_cons, h, ih, hm]
  refine ⟨key ss.rules, ?_⟩
  have : (matching_rules e ss).map Prod.snd
      = ss.rules.filter (fun rule => (match_rule e rule).isSome) := key ss.rules
  rw [this]
  exact List.filter_sublist ss.rules

/-! ## Claim C8 -/

/-- Claim C8: the matching engine is total — matches always returns a
boolean, match_rule always returns an optional pair, matching_rules always
returns a list no longer than the stylesheet, and an element without id or
class attribute is handled (id is none, the class set is empty) rather than
an error. -/
theorem matching_engine_total :
    ∀ (e : ElementData) (sel : Selector) (r : Rule) (ss : Stylesheet),
      («matches» e sel = true ∨ «matches» e sel = false)
      ∧ ((match_rule e r).isSome = true ∨ (match_rule e r).isNone = true)
      ∧ (matching_rules e ss).length ≤ ss.rules.length
      ∧ (AttrMap.get e.attributes "id" = none → ElementData.id e = none)
      ∧ (AttrMap.get e.attributes "class" = none → ElementData.classes e = []) := by
  intro e sel r ss
  refine ⟨?_, ?_, ?_, fun h => h, fun h => ?_⟩
  · cases h : «matches» e sel
    · exact Or.inr rfl
    · exact Or.inl rfl
  · cases match_rule e r
    · exact Or.inr rfl
    · exact Or.inl rfl
  · exact List.length_filterMap_le _ _
  · unfold ElementData.classes
    rw [h]

/-! ## Claim C5 -/

/-- Claim C5 evaluation: parse_node is a fatal error on input that does not
start an element — its match on the next character has only the arm for an
opening angle bracket (the source's match is non-exhaustive and has no text
arm) — while parse_text, which the source defines but never calls, would
produce exactly the Text node the spec describes for the same input. -/
theorem parse_node_has_no_text_arm :
    parse_node 8 { pos := 0, input := "hello".data } = .error .panicked
    ∧ parse_text 8 { pos := 0, input := "hello".data }
        = .ok (text "hello", { pos := 5, input := "hello".data }) :=
  ⟨rfl, rfl⟩

/-! ## Claim C6 -/

/-- Claim C6: when parse_nodes succeeds on the whole input, source returns a
single top-level node directly with no synthetic wrapper, and wraps zero or
several top-level nodes in a synthetic html element with no attributes,
children in source order. -/
theorem source_single_node_unwrapped :
    ∀ (fuel : Nat) (input : String) (nodes : List Node) (p : Parser),
      parse_nodes fuel { pos := 0, input := input.data } = .ok (nodes, p) →
        ((∀ node, nodes = [node] → source fuel input = .ok node)
          ∧ (nodes.length ≠ 1 →
              source fuel input = .ok (elem "html" AttrMap.empty nodes))) := by
  intro fuel input nodes p h
  unfold source
  rw [h]
  match nodes with
  | [] =>
    exact ⟨fun n hn => (nomatch hn), fun _ => rfl⟩
  | [n] =>
    constructor
    · intro m hm
      rw [List.cons.injEq] at hm
      rw [hm.1]
    · intro hne
      exact absurd rfl hne
  | a :: b :: t =>
    constructor
    · intro m hm
      rw [List.cons.injEq] at hm
      exact absurd hm.2 (by simp)
    · intro _
      rfl

/-- Witness for C6: the single element of the markup input is returned
directly, and the empty input gives the synthetic wrapper. -/
theorem source_single_node_unwrapped_witness :
    source 32 "<a></a>" = .ok (elem "a" AttrMap.empty []) :=
  (source_single_node_unwrapped 32 "<a></a>" [elem "a" AttrMap.empty []]
    { pos := 7, input := "<a></a>".data } rfl).1 _ rfl

/-! ## Claim C7 -/

/-- Claim C7 evaluation: the parsers are fatal, with no partial result, on a
mismatched closing tag, on an attribute value with a missing opening quote,
on an attribute value whose closing quote never comes (opened with a double
quote, ended with a single quote), and on an unexpected character (a
semicolon) in a selector list. In this embedding an error carries no tree
and no selector list by construction. -/
theorem parsers_reject_malformed_fatally :
    source 32 "<a></b>" = .error .panicked
    ∧ parse_attr_value 8 { pos := 0, input := "x".data } = .error .panicked
    ∧ parse_attr_value 8 { pos := 0, input := ['"', 'a', 'b', '\''] } = .error .panicked
    ∧ parse_selector 32 { pos := 0, input := "div;".data } = .error .panicked :=
  ⟨rfl, rfl, rfl, rfl⟩

/-! ## Claim C9 -/

/-- Claim C9 evaluation: consuming a multi-byte character that is the last
of the input advances the position by one byte, not by the character's
UTF-8 length of two, leaving the cursor inside the character: the resulting
position is not a character boundary, the next next_char call is a fatal
error, and parse_text on the one-character input fails instead of returning
its text. -/
theorem consume_char_splits_final_multibyte_char :
    consume_char { pos := 0, input := ['é'] } = .ok ('é', { pos := 1, input := ['é'] })
    ∧ Char.utf8Size 'é' = 2
    ∧ charsFrom ['é'] 1 = none
    ∧ next_char { pos := 1, input := ['é'] } = .error .panicked
    ∧ parse_text 8 { pos := 0, input := ['é'] } = .error .panicked :=
  ⟨rfl, rfl, rfl, rfl, rfl⟩
